import Mathlib

/-!
Verification development for a small recursive ray tracer (Go, two files:
`main.go` and `vector3/vector3.go`).

Embedding conventions:
* Go `float64` values are modelled as rationals (ℚ).  `math.Sqrt` is modelled
  by `RT.ratSqrt`, an exact rational square root on perfect squares (all
  concrete inputs used below have perfect-square radicands, where the model
  agrees exactly with the source); `math.Pow` is modelled by `RT.qpow`,
  exact for nonnegative integer exponents (the only exponents exercised).
* A Go `panic` is modelled as `Except.error` carrying the panic message;
  normal returns are `Except.ok`.
* The 8-bit colour channels are modelled as `ℕ` with the narrowing
  float64→uint8 conversion `RT.narrowU8` (truncation, modulo 256).
* `TraceRay`'s recursion on an `int8` depth is realised structurally through
  a fuel parameter fixed to `depth.toNat` by the wrapper `RT.traceRay`; the
  fuel never runs out on the reflective branch because that branch requires
  `0 < depth`.
-/

namespace RT

/-- Model of Go `math.Sqrt` on rationals: `Rat.sqrt`, the exact square root
whenever the radicand is a perfect rational square (every concrete input
below is), and `0` on negative inputs. -/
def ratSqrt (q : ℚ) : ℚ := Rat.sqrt q

/-- Model of Go `math.Pow` restricted to nonnegative integer exponents,
where float exponentiation is exact; other exponents are outside the scope
of this rational embedding and yield `0`. -/
def qpow (x y : ℚ) : ℚ :=
  if 0 ≤ y.num ∧ y.den = 1 then x ^ y.num.toNat else 0

/-- Go `math.MaxFloat64`, the largest finite `float64`, as an exact
rational. -/
def maxFloat64 : ℚ := 2 ^ 1024 - 2 ^ 971

/-- Global tunable `Epsilon = 0.001` from `main.go`. -/
def epsilonVal : ℚ := 1 / 1000

/-- Global tunable `MaxIntensity = 1.` from `main.go`. -/
def maxIntensityVal : ℚ := 1

/-- `vector3.Vector3`: three float64 components. -/
structure Vec3 where
  x : ℚ
  y : ℚ
  z : ℚ
deriving DecidableEq, Repr

/-- `vector3.Add`. -/
def vadd (v1 v2 : Vec3) : Vec3 := ⟨v1.x + v2.x, v1.y + v2.y, v1.z + v2.z⟩

/-- `vector3.Sub`. -/
def vsub (v1 v2 : Vec3) : Vec3 := ⟨v1.x - v2.x, v1.y - v2.y, v1.z - v2.z⟩

/-- `Vector3.Negate`. -/
def vneg (v : Vec3) : Vec3 := ⟨-v.x, -v.y, -v.z⟩

/-- `Vector3.MulScalar`. -/
def vmulScalar (v : Vec3) (s : ℚ) : Vec3 := ⟨v.x * s, v.y * s, v.z * s⟩

/-- `Vector3.DivScalar`. -/
def vdivScalar (v : Vec3) (s : ℚ) : Vec3 := ⟨v.x / s, v.y / s, v.z / s⟩

/-- `vector3.Dot`. -/
def vdot (v1 v2 : Vec3) : ℚ := v1.x * v2.x + v1.y * v2.y + v1.z * v2.z

/-- `Vector3.Length`: `math.Sqrt(x*x + y*y + z*z)`. -/
def vlength (v : Vec3) : ℚ := ratSqrt (v.x * v.x + v.y * v.y + v.z * v.z)

/-- `Vector3.Normalize`: divide by the length when it is positive, otherwise
return the vector unchanged. -/
def vnormalize (v : Vec3) : Vec3 :=
  if vlength v > 0 then vdivScalar v (vlength v) else v

/-- `Vector3.Reflect` with receiver `v1`:
`factor := -2*Dot(v1, v2); factor*v1 + v2` componentwise. -/
def vreflect (v1 v2 : Vec3) : Vec3 :=
  let factor := -2 * vdot v1 v2
  ⟨factor * v1.x + v2.x, factor * v1.y + v2.y, factor * v1.z + v2.z⟩

/-- `main.ReflectRay(ray, normal) = normal.Reflect(ray.Negate())`. -/
def reflectRay (ray normal : Vec3) : Vec3 := vreflect normal (vneg ray)

/-- `color.RGBA`: four 8-bit channels, modelled as naturals. -/
structure ColorQ where
  r : ℕ
  g : ℕ
  b : ℕ
  a : ℕ
deriving DecidableEq, Repr

/-- Go narrowing conversion `uint8(f)` applied to a float64 colour-channel
value: truncation of the nonnegative values the program produces, taken
modulo 256 (the spec's stated wraparound rule for the narrowing). -/
def narrowU8 (q : ℚ) : ℕ := (⌊q⌋ % 256).toNat

/-- `main.LightType`. -/
inductive LightType where
  | point : LightType
  | ambient : LightType
deriving DecidableEq, Repr

/-- `main.Light`. -/
structure Light where
  lightType : LightType
  position : Vec3
  intensity : ℚ
deriving DecidableEq, Repr

/-- `main.Sphere`. -/
structure Sphere where
  radius : ℚ
  center : Vec3
  color : ColorQ
  specular : ℚ
  reflective : ℚ
deriving DecidableEq, Repr

/-- `Sphere.IsNull`: radius within `Epsilon` of 0 and centre length within
`Epsilon` of 0. -/
def Sphere.isNull (s : Sphere) : Bool :=
  |s.radius - 0| ≤ epsilonVal ∧ |vlength s.center - 0| ≤ epsilonVal

/-- The sentinel sphere `FindClosest` starts from: zero radius, zero centre,
black colour with alpha 255 (remaining fields zero-valued in Go). -/
def nullSphere : Sphere :=
  { radius := 0, center := ⟨0, 0, 0⟩, color := ⟨0, 0, 0, 255⟩
    specular := 0, reflective := 0 }

/-- The two quadratic roots `Sphere.ComputeIntersection` produces when the
leading coefficient `a = direction·direction` is nonzero: the sentinel pair
`(-1, -1)` on a negative discriminant, otherwise both roots of
`a t² + b t + c = 0` by the quadratic formula. -/
def rootsOf (s : Sphere) (startPoint direction : Vec3) : ℚ × ℚ :=
  let oc := vsub startPoint s.center
  let a := vdot direction direction
  let b := 2 * vdot oc direction
  let c := vdot oc oc - s.radius * s.radius
  let discriminant := b * b - 4 * a * c
  if discriminant < 0 then (-1, -1)
  else ((-b + ratSqrt discriminant) / (2 * a), (-b - ratSqrt discriminant) / (2 * a))

/-- `Sphere.ComputeIntersection`: panics (modelled as `Except.error`) when
`a = direction·direction` is zero, otherwise returns the root pair. -/
def computeIntersection (s : Sphere) (startPoint direction : Vec3) :
    Except String (ℚ × ℚ) :=
  if vdot direction direction = 0 then
    .error "ComputeIntersection: Division by zero"
  else .ok (rootsOf s startPoint direction)

/-- Loop body of `main.FindClosest` for one sphere, acting on the
accumulator `(closestSphere, closestT)`: check `t1` first, then `t2`
against the updated accumulator, each with
`t ≥ tMin && t ≤ tMax && t < closestT`. -/
def closestStep (startPoint direction : Vec3) (tMin tMax : ℚ)
    (acc : Sphere × ℚ) (s : Sphere) : Sphere × ℚ :=
  let r := rootsOf s startPoint direction
  let acc1 := if tMin ≤ r.1 ∧ r.1 ≤ tMax ∧ r.1 < acc.2 then (s, r.1) else acc
  if tMin ≤ r.2 ∧ r.2 ≤ tMax ∧ r.2 < acc1.2 then (s, r.2) else acc1

/-- The loop of `main.FindClosest` over the sphere list, propagating the
`ComputeIntersection` panic. -/
def findClosestAux (startPoint direction : Vec3) (tMin tMax : ℚ) :
    List Sphere → Sphere × ℚ → Except String (Sphere × ℚ)
  | [], acc => .ok acc
  | s :: rest, acc =>
    match computeIntersection s startPoint direction with
    | .error e => .error e
    | .ok _ =>
      findClosestAux startPoint direction tMin tMax rest
        (closestStep startPoint direction tMin tMax acc s)

/-- `main.FindClosest`: scan all spheres starting from the null-sphere
sentinel and `math.MaxFloat64`. -/
def findClosest (startPoint direction : Vec3) (spheres : List Sphere)
    (tMin tMax : ℚ) : Except String (Sphere × ℚ) :=
  findClosestAux startPoint direction tMin tMax spheres (nullSphere, maxFloat64)

/-- `Light.ComputeLighting`. Ambient lights return their intensity
unconditionally.  Point lights shadow-test with `FindClosest` over
`[Epsilon, 1]`; when unoccluded they add the diffuse term
`intensity * max(0, lightDir·normal) / (|point| * |normal|)` and, when
`specular > -1`, the specular term
`intensity * ((max(0, reflectDir·inverseDir)) / (|reflectDir| * |inverseDir|))^specular`,
panicking when either length is zero; the point-light result is returned
through `max(0, ·)`. -/
def computeLighting (light : Light) (point normal inverseDir : Vec3)
    (specular : ℚ) (spheres : List Sphere) : Except String ℚ :=
  match light.lightType with
  | .ambient => .ok light.intensity
  | .point =>
    let lightDir := vsub light.position point
    let tMax : ℚ := 1
    let tMin := epsilonVal
    match findClosest point lightDir spheres tMin tMax with
    | .error e => .error e
    | .ok (closestSphere, _) =>
      if closestSphere.isNull then
        let lightValue := max 0 (vdot lightDir normal)
        let resIntensity :=
          0 + light.intensity * lightValue / (vlength point * vlength normal)
        if specular > -1 then
          let reflectDir := reflectRay lightDir normal
          let specularValue := vdot reflectDir inverseDir
          if vlength reflectDir = 0 ∨ vlength inverseDir = 0 then
            .error "ComputeLighting: Division by zero"
          else
            .ok (max 0 (resIntensity +
              light.intensity *
                qpow (max 0 specularValue / (vlength reflectDir * vlength inverseDir))
                  specular))
        else .ok (max 0 resIntensity)
      else .ok (max 0 0)

/-- The `lightVal` accumulation loop of `TraceRay`:
`for _, light := range lights { lightVal += light.ComputeLighting(...) }`. -/
def sumLighting (point normal inverseDir : Vec3) (specular : ℚ)
    (spheres : List Sphere) : List Light → ℚ → Except String ℚ
  | [], acc => .ok acc
  | l :: ls, acc =>
    match computeLighting l point normal inverseDir specular spheres with
    | .error e => .error e
    | .ok v => sumLighting point normal inverseDir specular spheres ls (acc + v)

/-- The fixed background colour `TraceRay` returns on a miss. -/
def bgGray : ColorQ := ⟨125, 125, 125, 255⟩

/-- The locally shaded colour of step 5 of `TraceRay`: each of R, G, B
scaled by the (already clamped) light value and narrowed to 8 bits; alpha
untouched. -/
def localShade (s : Sphere) (lightVal : ℚ) : ColorQ :=
  { r := narrowU8 ((s.color.r : ℚ) * lightVal)
    g := narrowU8 ((s.color.g : ℚ) * lightVal)
    b := narrowU8 ((s.color.b : ℚ) * lightVal)
    a := s.color.a }

/-- The reflective blend of step 7 of `TraceRay`:
`localColor ← uint8(localColor * (1 - reflective))` per channel, then
`reflectedColor ← uint8(reflectedColor * reflective) + localColor` with
wrapping `uint8` addition; alpha of the reflected colour untouched. -/
def blendColors (reflectedColor localColor : ColorQ) (reflective : ℚ) : ColorQ :=
  let lr := narrowU8 ((localColor.r : ℚ) * (1 - reflective))
  let lg := narrowU8 ((localColor.g : ℚ) * (1 - reflective))
  let lb := narrowU8 ((localColor.b : ℚ) * (1 - reflective))
  { r := (narrowU8 ((reflectedColor.r : ℚ) * reflective) + lr) % 256
    g := (narrowU8 ((reflectedColor.g : ℚ) * reflective) + lg) % 256
    b := (narrowU8 ((reflectedColor.b : ℚ) * reflective) + lb) % 256
    a := reflectedColor.a }

/-- Body of `main.TraceRay`, with the recursion realised on the fuel
parameter.  The wrapper `traceRay` fixes `fuel = recursionDepth.toNat`, so
the `fuel = 0` fallback inside the reflective branch (which requires
`recursionDepth > 0`) is unreachable from the wrapper. -/
def traceRayFuel (startPoint direction : Vec3) (spheres : List Sphere)
    (lights : List Light) (tMax : ℚ) :
    ℕ → ℤ → ℚ → Except String ColorQ
  | fuel, recursionDepth, tMin =>
    match findClosest startPoint direction spheres tMin tMax with
    | .error e => .error e
    | .ok (closestSphere, closestT) =>
      if closestSphere.isNull then .ok bgGray
      else
        let pointIntersect := vadd startPoint (vmulScalar direction closestT)
        let normal := vnormalize (vsub pointIntersect closestSphere.center)
        match sumLighting pointIntersect normal (vneg direction)
            closestSphere.specular spheres lights 0 with
        | .error e => .error e
        | .ok lightSum =>
          let lightVal := min maxIntensityVal lightSum
          let localColor := localShade closestSphere lightVal
          if closestSphere.reflective ≤ 0 ∨ recursionDepth ≤ 0 then
            .ok localColor
          else
            match fuel with
            | 0 => .ok localColor
            | fuel2 + 1 =>
              let reflectedRay := reflectRay (vneg direction) normal
              match traceRayFuel pointIntersect reflectedRay spheres lights
                  tMax fuel2 (recursionDepth - 1) epsilonVal with
              | .error e => .error e
              | .ok reflectedColor =>
                .ok (blendColors reflectedColor localColor closestSphere.reflective)

/-- `main.TraceRay` (`recursionDepth` is Go `int8`, modelled as ℤ). -/
def traceRay (startPoint direction : Vec3) (spheres : List Sphere)
    (lights : List Light) (recursionDepth : ℤ) (tMin tMax : ℚ) :
    Except String ColorQ :=
  traceRayFuel startPoint direction spheres lights tMax
    recursionDepth.toNat recursionDepth tMin

/-- The zero-direction warning condition at the top of `TraceRay`:
`direction.Length() == 0.0` (the warning is a print; rendering state is
unaffected, so it is modelled as this standalone condition). -/
def warnsZeroDir (direction : Vec3) : Bool := vlength direction = 0

/-- One comparison step of `FindClosest`'s selection, acting on a
sphere/root pair that already passed the interval test: keep the new pair
exactly when its `t` is strictly smaller than the current best. -/
def selStep (acc c : Sphere × ℚ) : Sphere × ℚ := if c.2 < acc.2 then c else acc

/-- All qualifying sphere/root pairs of a scan, in encounter order: for each
sphere (in scene order) its root `t1` then its root `t2`, kept when the
root lies in the closed interval `[tMin, tMax]`. -/
def candidatePairs (startPoint direction : Vec3) (tMin tMax : ℚ)
    (spheres : List Sphere) : List (Sphere × ℚ) :=
  spheres.flatMap fun s =>
    ((s, (rootsOf s startPoint direction).1) ::
       (s, (rootsOf s startPoint direction).2) :: []).filter
      fun c => tMin ≤ c.2 ∧ c.2 ≤ tMax

/-- Reference body of `TraceRay` with the reflection recursion removed:
closest-hit search, miss → background gray, local shading, and an
unconditional return of the locally shaded colour.  Used to state that a
depth-0 (or depth-exhausted) call never recurses. -/
def traceRayNoRec (startPoint direction : Vec3) (spheres : List Sphere)
    (lights : List Light) (tMin tMax : ℚ) : Except String ColorQ :=
  match findClosest startPoint direction spheres tMin tMax with
  | .error e => .error e
  | .ok (closestSphere, closestT) =>
    if closestSphere.isNull then .ok bgGray
    else
      let pointIntersect := vadd startPoint (vmulScalar direction closestT)
      let normal := vnormalize (vsub pointIntersect closestSphere.center)
      match sumLighting pointIntersect normal (vneg direction)
          closestSphere.specular spheres lights 0 with
      | .error e => .error e
      | .ok lightSum => .ok (localShade closestSphere (min maxIntensityVal lightSum))

/-- Specular term exactly as the specification's words state it: the
exponent applied to the clamped dot product, the division by the two
lengths applied after exponentiation.  (The source instead exponentiates
the quotient; the two are compared in the C3 theorems.) -/
def specularTermSpec (intensity dotVal rLen vLen specular : ℚ) : ℚ :=
  intensity * qpow (max 0 dotVal) specular / (rLen * vLen)

/-! Helper lemmas. -/

theorem ratSqrt_sq {r : ℚ} (h : 0 ≤ r) : ratSqrt (r * r) = r := by
  rw [ratSqrt, Rat.sqrt_eq, abs_of_nonneg h]

theorem ratSqrt_zero : ratSqrt 0 = 0 := by
  simpa using ratSqrt_sq (r := 0) le_rfl

theorem vlength_zero : vlength ⟨0, 0, 0⟩ = 0 := by
  show ratSqrt (0 * 0 + 0 * 0 + 0 * 0) = 0
  simpa using ratSqrt_zero

theorem qpow_natCast (x : ℚ) (n : ℕ) : qpow x (n : ℚ) = x ^ n := by
  rw [qpow, if_pos] <;> simp

theorem computeIntersection_ok {direction : Vec3}
    (h : vdot direction direction ≠ 0) (s : Sphere) (startPoint : Vec3) :
    computeIntersection s startPoint direction = .ok (rootsOf s startPoint direction) := by
  rw [computeIntersection, if_neg h]

theorem findClosestAux_eq_foldl {startPoint direction : Vec3} {tMin tMax : ℚ}
    (h : vdot direction direction ≠ 0) :
    ∀ (l : List Sphere) (acc : Sphere × ℚ),
      findClosestAux startPoint direction tMin tMax l acc =
        .ok (l.foldl (closestStep startPoint direction tMin tMax) acc)
  | [], _ => rfl
  | s :: rest, acc => by
    simp only [findClosestAux, computeIntersection_ok h, List.foldl_cons]
    exact findClosestAux_eq_foldl h rest _

theorem closestStep_eq (startPoint direction : Vec3) (tMin tMax : ℚ)
    (acc : Sphere × ℚ) (s : Sphere) :
    closestStep startPoint direction tMin tMax acc s =
      (((s, (rootsOf s startPoint direction).1) ::
          (s, (rootsOf s startPoint direction).2) :: []).filter
        (fun c => tMin ≤ c.2 ∧ c.2 ≤ tMax)).foldl selStep acc := by
  by_cases h1 : tMin ≤ (rootsOf s startPoint direction).1 ∧
      (rootsOf s startPoint direction).1 ≤ tMax <;>
    by_cases h2 : tMin ≤ (rootsOf s startPoint direction).2 ∧
        (rootsOf s startPoint direction).2 ≤ tMax <;>
      simp [closestStep, selStep, List.filter, h1, h2, and_assoc] <;>
        first
          | tauto
          | (split_ifs <;> first | rfl | tauto)

theorem foldl_closestStep_eq (startPoint direction : Vec3) (tMin tMax : ℚ) :
    ∀ (l : List Sphere) (acc : Sphere × ℚ),
      l.foldl (closestStep startPoint direction tMin tMax) acc =
        (candidatePairs startPoint direction tMin tMax l).foldl selStep acc
  | [], _ => rfl
  | s :: rest, acc => by
    simp only [List.foldl_cons, candidatePairs, List.flatMap_cons, List.foldl_append]
    rw [closestStep_eq]
    exact foldl_closestStep_eq startPoint direction tMin tMax rest _

theorem mem_candidatePairs {startPoint direction : Vec3} {tMin tMax : ℚ}
    {spheres : List Sphere} {c : Sphere × ℚ}
    (h : c ∈ candidatePairs startPoint direction tMin tMax spheres) :
    c.1 ∈ spheres ∧
      (c.2 = (rootsOf c.1 startPoint direction).1 ∨
        c.2 = (rootsOf c.1 startPoint direction).2) ∧
      tMin ≤ c.2 ∧ c.2 ≤ tMax := by
  simp only [candidatePairs, List.mem_flatMap, List.mem_filter, List.mem_cons,
    List.not_mem_nil, or_false, decide_eq_true_eq] at h
  obtain ⟨s, hs, hc, hint⟩ := h
  rcases hc with rfl | rfl <;> simp_all

theorem foldl_selStep_spec :
    ∀ (l : List (Sphere × ℚ)) (acc : Sphere × ℚ),
      (l.foldl selStep acc = acc ∧ ∀ c ∈ l, acc.2 ≤ c.2) ∨
      (∃ i, ∃ hi : i < l.length,
        l.foldl selStep acc = l.get ⟨i, hi⟩ ∧ (l.get ⟨i, hi⟩).2 < acc.2 ∧
        (∀ c ∈ l, (l.get ⟨i, hi⟩).2 ≤ c.2) ∧
        ∀ (j : ℕ) (hj : j < l.length), j < i →
          (l.get ⟨i, hi⟩).2 < (l.get ⟨j, hj⟩).2) := by
  intro l
  induction l with
  | nil => intro acc; exact Or.inl ⟨rfl, by simp⟩
  | cons c rest ih =>
    intro acc
    rw [List.foldl_cons]
    by_cases hc : c.2 < acc.2
    · rw [show selStep acc c = c from if_pos hc]
      rcases ih c with ⟨heq, hall⟩ | ⟨i, hi, heq, hlt, hmin, hfirst⟩
      · refine Or.inr ⟨0, by simp, ?_, ?_, ?_, ?_⟩
        · simpa using heq
        · simpa using hc
        · intro x hx
          rcases List.mem_cons.mp hx with rfl | hx
          · simp
          · simpa using hall x hx
        · intro j hj hji; omega
      · refine Or.inr ⟨i + 1, by simpa using hi, ?_, ?_, ?_, ?_⟩
        · simpa using heq
        · simp only [List.get_cons_succ]
          exact lt_trans hlt hc
        · intro x hx
          rcases List.mem_cons.mp hx with rfl | hx
          · simpa using le_of_lt hlt
          · simpa using hmin x hx
        · intro j hj hji
          match j with
          | 0 => simpa using hlt
          | j2 + 1 =>
            have := hfirst j2 (by simpa using hj) (by omega)
            simpa using this
    · rw [show selStep acc c = acc from if_neg hc]
      rcases ih acc with ⟨heq, hall⟩ | ⟨i, hi, heq, hlt, hmin, hfirst⟩
      · refine Or.inl ⟨heq, ?_⟩
        intro x hx
        rcases List.mem_cons.mp hx with rfl | hx
        · exact le_of_not_lt hc
        · exact hall x hx
      · refine Or.inr ⟨i + 1, by simpa using hi, ?_, ?_, ?_, ?_⟩
        · simpa using heq
        · simpa using hlt
        · intro x hx
          rcases List.mem_cons.mp hx with rfl | hx
          · simp only [List.get_cons_succ]
            exact le_of_lt (lt_of_lt_of_le hlt (le_of_not_lt hc))
          · simpa using hmin x hx
        · intro j hj hji
          match j with
          | 0 =>
            simp only [List.get_cons_succ, List.get_cons_zero]
            exact lt_of_lt_of_le hlt (le_of_not_lt hc)
          | j2 + 1 =>
            have := hfirst j2 (by simpa using hj) (by omega)
            simpa using this

theorem findClosest_eq_foldl {startPoint direction : Vec3} {tMin tMax : ℚ}
    (h : vdot direction direction ≠ 0) (spheres : List Sphere) :
    findClosest startPoint direction spheres tMin tMax =
      .ok ((candidatePairs startPoint direction tMin tMax spheres).foldl selStep
        (nullSphere, maxFloat64)) := by
  rw [findClosest, findClosestAux_eq_foldl h, foldl_closestStep_eq]

/-! Claim theorems. -/

/-- C1: for every origin, direction with a nonzero quadratic leading
coefficient (a zero one panics inside `ComputeIntersection`), sphere list
and interval, as long as no computed root reaches the `math.MaxFloat64`
sentinel that doubles as the initial best `t`, `FindClosest` scans every
sphere, computes both quadratic roots, and returns the sphere together with
the smallest `t` lying in the closed interval `[tMin, tMax]` over both
roots of all spheres (the returned pair is a qualifying candidate whose `t`
is a lower bound of all qualifying roots); if no sphere produces a
qualifying root it returns the null-sphere sentinel and `math.MaxFloat64`;
on an exact tie in `t` the first candidate in scene order wins: every
strictly earlier candidate has a strictly larger `t`, because the
comparison is strict less-than. -/
theorem findClosest_scan_spec (startPoint direction : Vec3)
    (spheres : List Sphere) (tMin tMax : ℚ)
    (ha : vdot direction direction ≠ 0)
    (hbound : ∀ c ∈ candidatePairs startPoint direction tMin tMax spheres,
      c.2 < maxFloat64) :
    (candidatePairs startPoint direction tMin tMax spheres = [] →
      findClosest startPoint direction spheres tMin tMax =
        .ok (nullSphere, maxFloat64)) ∧
    (candidatePairs startPoint direction tMin tMax spheres ≠ [] →
      ∃ i, ∃ hi : i < (candidatePairs startPoint direction tMin tMax spheres).length,
        findClosest startPoint direction spheres tMin tMax =
          .ok ((candidatePairs startPoint direction tMin tMax spheres).get ⟨i, hi⟩) ∧
        (∀ c ∈ candidatePairs startPoint direction tMin tMax spheres,
          ((candidatePairs startPoint direction tMin tMax spheres).get ⟨i, hi⟩).2 ≤ c.2) ∧
        ∀ (j : ℕ) (hj : j < (candidatePairs startPoint direction tMin tMax spheres).length),
          j < i →
            ((candidatePairs startPoint direction tMin tMax spheres).get ⟨i, hi⟩).2 <
              ((candidatePairs startPoint direction tMin tMax spheres).get ⟨j, hj⟩).2) := by
  constructor
  · intro hempty
    rw [findClosest_eq_foldl ha, hempty]
    rfl
  · intro hne
    rcases foldl_selStep_spec (candidatePairs startPoint direction tMin tMax spheres)
        (nullSphere, maxFloat64) with ⟨heq, hall⟩ | ⟨i, hi, heq, hlt, hmin, hfirst⟩
    · exfalso
      obtain ⟨c, hc⟩ := List.exists_mem_of_ne_nil _ hne
      exact absurd (hall c hc) (not_le.mpr (hbound c hc))
    · exact ⟨i, hi, by rw [findClosest_eq_foldl ha, heq], hmin, hfirst⟩

/-- Witness for C1 at a concrete one-sphere scene hit by the ray: both
hypotheses hold and the scan returns the candidate of index 1 (the smaller
root `t = 2` of the single sphere, whose roots are 4 and 2). -/
theorem findClosest_scan_spec_witness :
    vdot ⟨0, 0, 1⟩ ⟨0, 0, 1⟩ ≠ 0 ∧
    (∀ c ∈ candidatePairs ⟨0, 0, 0⟩ ⟨0, 0, 1⟩ 1 100
        [⟨1, ⟨0, 0, 3⟩, ⟨255, 0, 0, 255⟩, 0, 0⟩], c.2 < maxFloat64) ∧
    ((candidatePairs ⟨0, 0, 0⟩ ⟨0, 0, 1⟩ 1 100
        [⟨1, ⟨0, 0, 3⟩, ⟨255, 0, 0, 255⟩, 0, 0⟩] = [] →
      findClosest ⟨0, 0, 0⟩ ⟨0, 0, 1⟩ [⟨1, ⟨0, 0, 3⟩, ⟨255, 0, 0, 255⟩, 0, 0⟩] 1 100 =
        .ok (nullSphere, maxFloat64)) ∧
    (candidatePairs ⟨0, 0, 0⟩ ⟨0, 0, 1⟩ 1 100
        [⟨1, ⟨0, 0, 3⟩, ⟨255, 0, 0, 255⟩, 0, 0⟩] ≠ [] →
      ∃ i, ∃ hi : i < (candidatePairs ⟨0, 0, 0⟩ ⟨0, 0, 1⟩ 1 100
          [⟨1, ⟨0, 0, 3⟩, ⟨255, 0, 0, 255⟩, 0, 0⟩]).length,
        findClosest ⟨0, 0, 0⟩ ⟨0, 0, 1⟩ [⟨1, ⟨0, 0, 3⟩, ⟨255, 0, 0, 255⟩, 0, 0⟩] 1 100 =
          .ok ((candidatePairs ⟨0, 0, 0⟩ ⟨0, 0, 1⟩ 1 100
            [⟨1, ⟨0, 0, 3⟩, ⟨255, 0, 0, 255⟩, 0, 0⟩]).get ⟨i, hi⟩) ∧
        (∀ c ∈ candidatePairs ⟨0, 0, 0⟩ ⟨0, 0, 1⟩ 1 100
            [⟨1, ⟨0, 0, 3⟩, ⟨255, 0, 0, 255⟩, 0, 0⟩],
          ((candidatePairs ⟨0, 0, 0⟩ ⟨0, 0, 1⟩ 1 100
            [⟨1, ⟨0, 0, 3⟩, ⟨255, 0, 0, 255⟩, 0, 0⟩]).get ⟨i, hi⟩).2 ≤ c.2) ∧
        ∀ (j : ℕ) (hj : j < (candidatePairs ⟨0, 0, 0⟩ ⟨0, 0, 1⟩ 1 100
            [⟨1, ⟨0, 0, 3⟩, ⟨255, 0, 0, 255⟩, 0, 0⟩]).length), j < i →
          ((candidatePairs ⟨0, 0, 0⟩ ⟨0, 0, 1⟩ 1 100
            [⟨1, ⟨0, 0, 3⟩, ⟨255, 0, 0, 255⟩, 0, 0⟩]).get ⟨i, hi⟩).2 <
            ((candidatePairs ⟨0, 0, 0⟩ ⟨0, 0, 1⟩ 1 100
              [⟨1, ⟨0, 0, 3⟩, ⟨255, 0, 0, 255⟩, 0, 0⟩]).get ⟨j, hj⟩).2)) := by
  have hroots : rootsOf ⟨1, ⟨0, 0, 3⟩, ⟨255, 0, 0, 255⟩, 0, 0⟩ ⟨0, 0, 0⟩ ⟨0, 0, 1⟩ =
      (4, 2) := by
    rw [rootsOf]
    norm_num [vsub, vdot]
    rw [show (4 : ℚ) = 2 * 2 by norm_num, ratSqrt_sq (by norm_num)]
    norm_num
  have hcands : candidatePairs ⟨0, 0, 0⟩ ⟨0, 0, 1⟩ 1 100
      [⟨1, ⟨0, 0, 3⟩, ⟨255, 0, 0, 255⟩, 0, 0⟩] =
      [(⟨1, ⟨0, 0, 3⟩, ⟨255, 0, 0, 255⟩, 0, 0⟩, 4),
        (⟨1, ⟨0, 0, 3⟩, ⟨255, 0, 0, 255⟩, 0, 0⟩, 2)] := by
    simp [candidatePairs, hroots]
    norm_num
  have h1 : vdot (⟨0, 0, 1⟩ : Vec3) ⟨0, 0, 1⟩ ≠ 0 := by norm_num [vdot]
  have h2 : ∀ c ∈ candidatePairs ⟨0, 0, 0⟩ ⟨0, 0, 1⟩ 1 100
      [⟨1, ⟨0, 0, 3⟩, ⟨255, 0, 0, 255⟩, 0, 0⟩], c.2 < maxFloat64 := by
    rw [hcands]
    intro c hc
    rcases List.mem_cons.mp hc with rfl | hc
    · norm_num [maxFloat64]
    · rcases List.mem_cons.mp hc with rfl | hc
      · norm_num [maxFloat64]
      · simp at hc
  exact ⟨h1, h2, findClosest_scan_spec _ _ _ _ _ h1 h2⟩

theorem nullSphere_isNull : nullSphere.isNull = true := by
  rw [Sphere.isNull]
  simp only [nullSphere, vlength_zero, decide_eq_true_eq]
  norm_num [epsilonVal]

theorem findClosest_nil (startPoint direction : Vec3) (tMin tMax : ℚ) :
    findClosest startPoint direction [] tMin tMax = .ok (nullSphere, maxFloat64) := rfl

theorem traceRay_isNull {startPoint direction : Vec3} {spheres : List Sphere}
    {lights : List Light} {depth : ℤ} {tMin tMax : ℚ} {p : Sphere × ℚ}
    (h : findClosest startPoint direction spheres tMin tMax = .ok p)
    (hn : p.1.isNull = true) :
    traceRay startPoint direction spheres lights depth tMin tMax = .ok bgGray := by
  obtain ⟨s, t⟩ := p
  rw [traceRay, traceRayFuel.eq_def]
  simp only [h, hn, if_true]

theorem vdot_zero : vdot ⟨0, 0, 0⟩ ⟨0, 0, 0⟩ = 0 := by norm_num [vdot]

theorem traceRay_zeroDir_cons (startPoint : Vec3) (s : Sphere) (ss : List Sphere)
    (lights : List Light) (depth : ℤ) (tMin tMax : ℚ) :
    traceRay startPoint ⟨0, 0, 0⟩ (s :: ss) lights depth tMin tMax =
      .error "ComputeIntersection: Division by zero" := by
  have hci : computeIntersection s startPoint ⟨0, 0, 0⟩ =
      .error "ComputeIntersection: Division by zero" := by
    rw [computeIntersection, if_pos vdot_zero]
  rw [traceRay, traceRayFuel.eq_def]
  simp only [findClosest, findClosestAux, hci]

/-- C2 (amended): with a zero-length direction, `TraceRay` does trigger the
non-fatal warning condition, but rendering only continues when the sphere
list is empty (returning the background gray); for any non-empty sphere
list the very first `ComputeIntersection` call panics with
"ComputeIntersection: Division by zero", terminating the process. -/
theorem traceRay_zeroDir (startPoint : Vec3) (lights : List Light) (depth : ℤ)
    (tMin tMax : ℚ) :
    warnsZeroDir ⟨0, 0, 0⟩ = true ∧
    traceRay startPoint ⟨0, 0, 0⟩ [] lights depth tMin tMax = .ok bgGray ∧
    ∀ (s : Sphere) (ss : List Sphere),
      traceRay startPoint ⟨0, 0, 0⟩ (s :: ss) lights depth tMin tMax =
        .error "ComputeIntersection: Division by zero" := by
  refine ⟨?_, ?_, fun s ss => traceRay_zeroDir_cons startPoint s ss lights depth tMin tMax⟩
  · rw [warnsZeroDir]
    simp [vlength_zero]
  · exact traceRay_isNull (findClosest_nil _ _ _ _) nullSphere_isNull

/-- Counterexample to C2 as stated: at a concrete non-empty scene, a
zero-length direction does terminate the process — `TraceRay` triggers the
warning condition and then panics inside `ComputeIntersection` instead of
returning a color. -/
theorem traceRay_zeroDir_counterexample :
    warnsZeroDir ⟨0, 0, 0⟩ = true ∧
    traceRay ⟨0, 0, 0⟩ ⟨0, 0, 0⟩ [⟨1, ⟨0, 0, 3⟩, ⟨255, 0, 0, 255⟩, 0, 0⟩] [] 3 1
        maxFloat64 =
      .error "ComputeIntersection: Division by zero" := by
  constructor
  · rw [warnsZeroDir]
    simp [vlength_zero]
  · exact traceRay_zeroDir_cons _ _ _ _ _ _ _

theorem ratSqrt_one : ratSqrt 1 = 1 := by
  simpa using ratSqrt_sq (r := 1) (by norm_num)

theorem vlength_e1 : vlength ⟨1, 0, 0⟩ = 1 := by
  rw [vlength]
  norm_num [ratSqrt_one]

/-- Shared concrete evaluation: an unoccluded point light at `(1,0,0)` shining
on the world origin with a zero normal-divisor product; the diffuse division
by zero yields the model's `0` and no error is signalled. -/
theorem computeLighting_origin_eval :
    computeLighting ⟨.point, ⟨1, 0, 0⟩, 1⟩ ⟨0, 0, 0⟩ ⟨1, 0, 0⟩ ⟨0, 0, 0⟩ (-1) [] =
      .ok 0 := by
  rw [computeLighting.eq_def]
  simp only [findClosest_nil, nullSphere_isNull, if_true]
  norm_num [vsub, vdot, vlength_zero]

/-- C4 (amended): on every input on which `ComputeLighting` returns, a point
light's result is clamped below at 0 (never negative), while an ambient
light's result is its configured intensity unchanged — negative whenever the
(unclamped) intensity is negative. -/
theorem computeLighting_clamped (light : Light) (point normal inverseDir : Vec3)
    (specular : ℚ) (spheres : List Sphere) (r : ℚ)
    (h : computeLighting light point normal inverseDir specular spheres = .ok r) :
    (light.lightType = .point → 0 ≤ r) ∧
    (light.lightType = .ambient → r = light.intensity) := by
  constructor
  · intro hpt
    rw [computeLighting.eq_def, hpt] at h
    dsimp only at h
    rcases hfc : findClosest point (vsub light.position point) spheres epsilonVal 1 with
      e | pr
    · rw [hfc] at h
      cases h
    · obtain ⟨cs, t⟩ := pr
      rw [hfc] at h
      simp only at h
      split_ifs at h with h1 h2 h3
      all_goals
        obtain rfl := (Except.ok.injEq _ _).mp h.symm
      all_goals exact le_max_left 0 _
  · intro hamb
    rw [computeLighting.eq_def, hamb] at h
    exact ((Except.ok.injEq _ _).mp h).symm

/-- Witness for C4 (amended) at a concrete point light on which
`ComputeLighting` returns `0`. -/
theorem computeLighting_clamped_witness :
    computeLighting ⟨.point, ⟨1, 0, 0⟩, 1⟩ ⟨0, 0, 0⟩ ⟨1, 0, 0⟩ ⟨0, 0, 0⟩ (-1) [] =
        .ok 0 ∧
    ((Light.lightType ⟨.point, ⟨1, 0, 0⟩, 1⟩ = .point → (0 : ℚ) ≤ 0) ∧
     (Light.lightType ⟨.point, ⟨1, 0, 0⟩, 1⟩ = .ambient →
        (0 : ℚ) = Light.intensity ⟨.point, ⟨1, 0, 0⟩, 1⟩)) :=
  ⟨computeLighting_origin_eval,
    computeLighting_clamped _ _ _ _ _ _ _ computeLighting_origin_eval⟩

/-- Counterexample to C4 as stated: an ambient light with negative
configured intensity (the data model leaves intensity unclamped) makes
`ComputeLighting` return a negative value — the ambient branch returns the
intensity before any clamping with 0. -/
theorem computeLighting_negative_counterexample :
    computeLighting ⟨.ambient, ⟨0, 0, 0⟩, -1⟩ ⟨0, 0, 0⟩ ⟨1, 0, 0⟩ ⟨0, 0, 0⟩ (-1) [] =
      .ok (-1) ∧ (-1 : ℚ) < 0 := by
  constructor
  · rw [computeLighting.eq_def]
  · norm_num

/-- C9: the diffuse term of `ComputeLighting` divides by
`|point| * |normal|` with no zero guard: at a surface point at the world
origin (unoccluded point light, specular disabled) the divisor is exactly 0
yet the function returns `.ok` — the division by zero is performed (a
non-finite float in the source, the unguarded `x / 0` of this rational
model) instead of signalling an error; while the structurally analogous
zero-length condition in the specular branch (same configuration with
`specular = 2` and a zero inverse-view direction) is a fatal panic. -/
theorem computeLighting_diffuse_div_by_zero :
    vlength ⟨0, 0, 0⟩ * vlength ⟨1, 0, 0⟩ = 0 ∧
    computeLighting ⟨.point, ⟨1, 0, 0⟩, 1⟩ ⟨0, 0, 0⟩ ⟨1, 0, 0⟩ ⟨0, 0, 0⟩ (-1) [] =
      .ok 0 ∧
    computeLighting ⟨.point, ⟨1, 0, 0⟩, 1⟩ ⟨0, 0, 0⟩ ⟨1, 0, 0⟩ ⟨0, 0, 0⟩ 2 [] =
      .error "ComputeLighting: Division by zero" := by
  refine ⟨by rw [vlength_zero]; ring, computeLighting_origin_eval, ?_⟩
  rw [computeLighting.eq_def]
  simp only [findClosest_nil, nullSphere_isNull, if_true]
  norm_num [vsub, vdot, vlength_zero, reflectRay, vreflect, vneg]

/-- C3 (amended): for every unoccluded point light with
`specularExponent > -1` (and nonzero reflected/inverse-view lengths, else a
panic), the specular contribution added by `ComputeLighting` is
`intensity * (max(0, dot(reflectedLightDir, inverseViewDir)) / (|reflectedLightDir| * |inverseViewDir|)) ^ specularExponent`:
the division by the two lengths is applied to the dot product BEFORE
exponentiation, not after as the specification states. -/
theorem computeLighting_specular_formula (light : Light)
    (point normal inverseDir : Vec3) (specular : ℚ) (spheres : List Sphere)
    (cs : Sphere) (t : ℚ) (hpt : light.lightType = .point)
    (hfc : findClosest point (vsub light.position point) spheres epsilonVal 1 =
      .ok (cs, t))
    (hnull : cs.isNull = true) (hspec : specular > -1)
    (hlen : ¬(vlength (reflectRay (vsub light.position point) normal) = 0 ∨
      vlength inverseDir = 0)) :
    computeLighting light point normal inverseDir specular spheres =
      .ok (max 0
        (0 + light.intensity * max 0 (vdot (vsub light.position point) normal) /
            (vlength point * vlength normal) +
          light.intensity *
            qpow
              (max 0 (vdot (reflectRay (vsub light.position point) normal) inverseDir) /
                (vlength (reflectRay (vsub light.position point) normal) *
                  vlength inverseDir))
              specular)) := by
  rw [computeLighting.eq_def, hpt]
  dsimp only
  rw [hfc]
  simp only [hnull, if_true, if_pos hspec, if_neg hlen]

/-- Witness for C3 (amended) at a concrete unoccluded point light with
integer exponent 2 and rational lengths. -/
theorem computeLighting_specular_formula_witness :
    Light.lightType ⟨.point, ⟨3, 4, 5⟩, 1⟩ = .point ∧
    findClosest ⟨3, 4, 0⟩ (vsub ⟨3, 4, 5⟩ ⟨3, 4, 0⟩) [] epsilonVal 1 =
      .ok (nullSphere, maxFloat64) ∧
    nullSphere.isNull = true ∧
    (2 : ℚ) > -1 ∧
    ¬(vlength (reflectRay (vsub ⟨3, 4, 5⟩ ⟨3, 4, 0⟩) ⟨0, 0, 1⟩) = 0 ∨
      vlength (⟨0, 3, 4⟩ : Vec3) = 0) ∧
    computeLighting ⟨.point, ⟨3, 4, 5⟩, 1⟩ ⟨3, 4, 0⟩ ⟨0, 0, 1⟩ ⟨0, 3, 4⟩ 2 [] =
      .ok (max 0
        (0 + 1 * max 0 (vdot (vsub ⟨3, 4, 5⟩ ⟨3, 4, 0⟩) ⟨0, 0, 1⟩) /
            (vlength ⟨3, 4, 0⟩ * vlength ⟨0, 0, 1⟩) +
          1 *
            qpow
              (max 0 (vdot (reflectRay (vsub ⟨3, 4, 5⟩ ⟨3, 4, 0⟩) ⟨0, 0, 1⟩)
                  ⟨0, 3, 4⟩) /
                (vlength (reflectRay (vsub ⟨3, 4, 5⟩ ⟨3, 4, 0⟩) ⟨0, 0, 1⟩) *
                  vlength (⟨0, 3, 4⟩ : Vec3)))
              2)) := by
  have hrd : reflectRay (vsub ⟨3, 4, 5⟩ ⟨3, 4, 0⟩) ⟨0, 0, 1⟩ = ⟨0, 0, 5⟩ := by
    norm_num [reflectRay, vreflect, vneg, vsub, vdot]
  have hl5 : vlength ⟨0, 0, 5⟩ = 5 := by
    rw [vlength]
    norm_num
    rw [show (25 : ℚ) = 5 * 5 by norm_num]
    exact ratSqrt_sq (by norm_num)
  have hlv : vlength ⟨0, 3, 4⟩ = 5 := by
    rw [vlength]
    norm_num
    rw [show (25 : ℚ) = 5 * 5 by norm_num]
    exact ratSqrt_sq (by norm_num)
  refine ⟨rfl, rfl, nullSphere_isNull, by norm_num, ?_, ?_⟩
  · rw [hrd, hl5, hlv]
    norm_num
  · exact computeLighting_specular_formula _ _ _ _ _ _ _ _ rfl rfl
      nullSphere_isNull (by norm_num)
      (by rw [hrd, hl5, hlv]; norm_num)

/-- Counterexample to C3 as stated: at a concrete unoccluded point light
(intensity 1, diffuse term exactly 1, `specularExponent = 2`, dot product
20, both lengths 5), the specification's formula
`intensity * max(0, dot)^exponent / (|reflect| * |inverseView|)` predicts a
specular contribution of `20^2 / 25 = 16` and hence a total of `1 + 16`,
but `ComputeLighting` returns `41/25` (its specular contribution is
`(20/25)^2 = 16/25`): the exponent is applied after the division, not
before. -/
theorem computeLighting_specular_counterexample :
    computeLighting ⟨.point, ⟨3, 4, 5⟩, 1⟩ ⟨3, 4, 0⟩ ⟨0, 0, 1⟩ ⟨0, 3, 4⟩ 2 [] =
      .ok (41 / 25) ∧
    (1 : ℚ) * max 0 (vdot (vsub ⟨3, 4, 5⟩ ⟨3, 4, 0⟩) ⟨0, 0, 1⟩) /
        (vlength ⟨3, 4, 0⟩ * vlength ⟨0, 0, 1⟩) = 1 ∧
    specularTermSpec 1
        (vdot (reflectRay (vsub ⟨3, 4, 5⟩ ⟨3, 4, 0⟩) ⟨0, 0, 1⟩) ⟨0, 3, 4⟩)
        (vlength (reflectRay (vsub ⟨3, 4, 5⟩ ⟨3, 4, 0⟩) ⟨0, 0, 1⟩))
        (vlength ⟨0, 3, 4⟩) 2 = 16 ∧
    (41 / 25 : ℚ) ≠ 1 + 16 := by
  have hrd : reflectRay (vsub ⟨3, 4, 5⟩ ⟨3, 4, 0⟩) ⟨0, 0, 1⟩ = ⟨0, 0, 5⟩ := by
    norm_num [reflectRay, vreflect, vneg, vsub, vdot]
  have hl5 : vlength ⟨0, 0, 5⟩ = 5 := by
    rw [vlength]
    norm_num
    rw [show (25 : ℚ) = 5 * 5 by norm_num]
    exact ratSqrt_sq (by norm_num)
  have hlv : vlength ⟨0, 3, 4⟩ = 5 := by
    rw [vlength]
    norm_num
    rw [show (25 : ℚ) = 5 * 5 by norm_num]
    exact ratSqrt_sq (by norm_num)
  have hlp : vlength ⟨3, 4, 0⟩ = 5 := by
    rw [vlength]
    norm_num
    rw [show (25 : ℚ) = 5 * 5 by norm_num]
    exact ratSqrt_sq (by norm_num)
  have hln : vlength ⟨0, 0, 1⟩ = 1 := by
    rw [vlength]
    norm_num [ratSqrt_one]
  refine ⟨?_, ?_, ?_, by norm_num⟩
  · rw [computeLighting.eq_def]
    dsimp only
    rw [findClosest_nil]
    simp only [nullSphere_isNull, if_true]
    rw [hrd, hl5, hlv, hlp, hln]  -- may need adjustment
    norm_num [vsub, vdot, qpow, show Int.toNat 2 = 2 from rfl]
  · rw [hlp, hln]
    norm_num [vsub, vdot]
  · rw [hrd, hl5, hlv]
    norm_num [specularTermSpec, vdot, qpow, show Int.toNat 2 = 2 from rfl]

theorem one_lt_maxFloat64 : (1 : ℚ) < maxFloat64 := by norm_num [maxFloat64]

/-- C5 (amended): for every point light and every scene none of whose
spheres matches the null-sphere sentinel, if the shadow ray from the
surface point toward the light is blocked by any sphere at a parameter in
`(epsilon, 1]`, then `ComputeLighting` returns exactly 0 for that light,
regardless of geometry on the far side of the occluder.  (Without the
no-null-sphere proviso a degenerate occluder near the origin is mistaken
for "no hit" — see the counterexample.) -/
theorem computeLighting_shadow (light : Light) (point normal inverseDir : Vec3)
    (specular : ℚ) (spheres : List Sphere) (s : Sphere) (t1 t2 : ℚ)
    (hpt : light.lightType = .point) (hs : s ∈ spheres)
    (hroots : computeIntersection s point (vsub light.position point) = .ok (t1, t2))
    (hhit : (epsilonVal < t1 ∧ t1 ≤ 1) ∨ (epsilonVal < t2 ∧ t2 ≤ 1))
    (hnonull : ∀ s2 ∈ spheres, s2.isNull = false) :
    computeLighting light point normal inverseDir specular spheres = .ok 0 := by
  have ha : vdot (vsub light.position point) (vsub light.position point) ≠ 0 := by
    intro h0
    rw [computeIntersection, if_pos h0] at hroots
    cases hroots
  have hro : rootsOf s point (vsub light.position point) = (t1, t2) := by
    rw [computeIntersection, if_neg ha] at hroots
    exact (Except.ok.injEq _ _).mp hroots
  have hmem : ∃ c, c ∈ candidatePairs point (vsub light.position point)
      epsilonVal 1 spheres := by
    rcases hhit with ⟨hlt, hle⟩ | ⟨hlt, hle⟩
    · refine ⟨(s, t1), ?_⟩
      simp only [candidatePairs, List.mem_flatMap]
      refine ⟨s, hs, ?_⟩
      rw [hro]
      simp only [List.mem_filter, List.mem_cons, decide_eq_true_eq]
      exact ⟨by simp, le_of_lt hlt, hle⟩
    · refine ⟨(s, t2), ?_⟩
      simp only [candidatePairs, List.mem_flatMap]
      refine ⟨s, hs, ?_⟩
      rw [hro]
      simp only [List.mem_filter, List.mem_cons, decide_eq_true_eq]
      exact ⟨by simp, le_of_lt hlt, hle⟩
  obtain ⟨c0, hc0⟩ := hmem
  rcases foldl_selStep_spec
      (candidatePairs point (vsub light.position point) epsilonVal 1 spheres)
      (nullSphere, maxFloat64) with ⟨heq, hall⟩ | ⟨i, hi, heq, hlt2, hmin, hfirst⟩
  · exfalso
    have h1 := hall c0 hc0
    have h2 := (mem_candidatePairs hc0).2.2.2
    exact absurd (le_trans h1 h2) (not_le.mpr one_lt_maxFloat64)
  · have hres : (candidatePairs point (vsub light.position point) epsilonVal 1
        spheres).get ⟨i, hi⟩ ∈
        candidatePairs point (vsub light.position point) epsilonVal 1 spheres :=
      List.get_mem _ _ _
    have hresNull : ((candidatePairs point (vsub light.position point) epsilonVal 1
        spheres).get ⟨i, hi⟩).1.isNull = false :=
      hnonull _ (mem_candidatePairs hres).1
    rw [computeLighting.eq_def, hpt]
    dsimp only
    rw [findClosest_eq_foldl ha, heq]
    rcases hpair : (candidatePairs point (vsub light.position point) epsilonVal 1
        spheres).get ⟨i, hi⟩ with ⟨cs, ct⟩
    rw [hpair] at hresNull
    simp only [hresNull, Bool.false_eq_true, if_false]
    norm_num

/-- Witness for C5 (amended) at a concrete scene: a unit sphere at
`(0,0,2)` (not a null sphere) blocks the shadow ray from the origin to a
point light at `(0,0,4)` at parameters 3/4 and 1/4, and `ComputeLighting`
returns exactly 0. -/
theorem computeLighting_shadow_witness :
    Light.lightType ⟨.point, ⟨0, 0, 4⟩, 1⟩ = .point ∧
    (⟨1, ⟨0, 0, 2⟩, ⟨255, 0, 0, 255⟩, 0, 0⟩ : Sphere) ∈
      [(⟨1, ⟨0, 0, 2⟩, ⟨255, 0, 0, 255⟩, 0, 0⟩ : Sphere)] ∧
    computeIntersection ⟨1, ⟨0, 0, 2⟩, ⟨255, 0, 0, 255⟩, 0, 0⟩ ⟨0, 0, 0⟩
      (vsub ⟨0, 0, 4⟩ ⟨0, 0, 0⟩) = .ok (3 / 4, 1 / 4) ∧
    ((epsilonVal < 3 / 4 ∧ (3 / 4 : ℚ) ≤ 1) ∨
      (epsilonVal < 1 / 4 ∧ (1 / 4 : ℚ) ≤ 1)) ∧
    (∀ s2 ∈ [(⟨1, ⟨0, 0, 2⟩, ⟨255, 0, 0, 255⟩, 0, 0⟩ : Sphere)],
      s2.isNull = false) ∧
    computeLighting ⟨.point, ⟨0, 0, 4⟩, 1⟩ ⟨0, 0, 0⟩ ⟨0, 0, 1⟩ ⟨0, 0, 0⟩ (-1)
      [⟨1, ⟨0, 0, 2⟩, ⟨255, 0, 0, 255⟩, 0, 0⟩] = .ok 0 := by
  have hld : vsub ⟨0, 0, 4⟩ ⟨0, 0, 0⟩ = (⟨0, 0, 4⟩ : Vec3) := by norm_num [vsub]
  have hroots : computeIntersection ⟨1, ⟨0, 0, 2⟩, ⟨255, 0, 0, 255⟩, 0, 0⟩ ⟨0, 0, 0⟩
      (vsub ⟨0, 0, 4⟩ ⟨0, 0, 0⟩) = .ok (3 / 4, 1 / 4) := by
    rw [hld, computeIntersection, if_neg (by norm_num [vdot])]
    rw [rootsOf]
    norm_num [vsub, vdot]
    rw [show (64 : ℚ) = 8 * 8 by norm_num, ratSqrt_sq (by norm_num)]
    norm_num
  have hnonull : ∀ s2 ∈ [(⟨1, ⟨0, 0, 2⟩, ⟨255, 0, 0, 255⟩, 0, 0⟩ : Sphere)],
      s2.isNull = false := by
    intro s2 hs2
    rw [List.mem_singleton] at hs2
    subst hs2
    rw [Sphere.isNull]
    simp only [decide_eq_false_iff_not, not_and]
    intro habs
    exfalso
    norm_num [epsilonVal] at habs
  have hhit : (epsilonVal < 3 / 4 ∧ (3 / 4 : ℚ) ≤ 1) ∨
      (epsilonVal < 1 / 4 ∧ (1 / 4 : ℚ) ≤ 1) :=
    Or.inl ⟨by norm_num [epsilonVal], by norm_num⟩
  exact ⟨rfl, by simp, hroots, hhit, hnonull,
    computeLighting_shadow _ _ _ _ _ _ _ _ _ rfl (by simp) hroots hhit hnonull⟩

/-- Case analysis of the point-light branch of `ComputeLighting`, given the
shadow-ray `FindClosest` result. -/
theorem computeLighting_point_cases (light : Light) (point normal inverseDir : Vec3)
    (specular : ℚ) (spheres : List Sphere) (cs : Sphere) (t : ℚ)
    (hpt : light.lightType = .point)
    (hfc : findClosest point (vsub light.position point) spheres epsilonVal 1 =
      .ok (cs, t)) :
    computeLighting light point normal inverseDir specular spheres =
      if cs.isNull then
        (if specular > -1 then
          (if vlength (reflectRay (vsub light.position point) normal) = 0 ∨
              vlength inverseDir = 0 then
            .error "ComputeLighting: Division by zero"
          else
            .ok (max 0
              (0 + light.intensity * max 0 (vdot (vsub light.position point) normal) /
                  (vlength point * vlength normal) +
                light.intensity *
                  qpow
                    (max 0 (vdot (reflectRay (vsub light.position point) normal)
                        inverseDir) /
                      (vlength (reflectRay (vsub light.position point) normal) *
                        vlength inverseDir))
                    specular)))
        else
          .ok (max 0
            (0 + light.intensity * max 0 (vdot (vsub light.position point) normal) /
              (vlength point * vlength normal))))
      else .ok (max 0 0) := by
  rw [computeLighting.eq_def, hpt]
  dsimp only
  rw [hfc]

/-- Counterexample to C5 as stated: a scene consisting of one degenerate
sphere (radius 1/2000, centred at the origin) that blocks the shadow ray at
parameters 2001/4000 and 1999/4000, both in `(epsilon, 1]` — yet
`ComputeLighting` returns 2, not 0, because the blocking sphere itself
satisfies `IsNull` and is mistaken for the "no hit" sentinel. -/
theorem computeLighting_shadow_counterexample :
    computeIntersection ⟨1 / 2000, ⟨0, 0, 0⟩, ⟨255, 0, 0, 255⟩, 0, 0⟩ ⟨-1, 0, 0⟩
        (vsub ⟨1, 0, 0⟩ ⟨-1, 0, 0⟩) = .ok (2001 / 4000, 1999 / 4000) ∧
    epsilonVal < 1999 / 4000 ∧ (1999 / 4000 : ℚ) ≤ 1 ∧
    computeLighting ⟨.point, ⟨1, 0, 0⟩, 1⟩ ⟨-1, 0, 0⟩ ⟨1, 0, 0⟩ ⟨0, 0, 0⟩ (-1)
        [⟨1 / 2000, ⟨0, 0, 0⟩, ⟨255, 0, 0, 255⟩, 0, 0⟩] = .ok 2 ∧
    (2 : ℚ) ≠ 0 := by
  have hld : vsub ⟨1, 0, 0⟩ ⟨-1, 0, 0⟩ = (⟨2, 0, 0⟩ : Vec3) := by norm_num [vsub]
  have hro : rootsOf ⟨1 / 2000, ⟨0, 0, 0⟩, ⟨255, 0, 0, 255⟩, 0, 0⟩ ⟨-1, 0, 0⟩
      ⟨2, 0, 0⟩ = (2001 / 4000, 1999 / 4000) := by
    rw [rootsOf]
    norm_num [vsub, vdot]
    rw [show (1 / 250000 : ℚ) = (1 / 500) * (1 / 500) by norm_num,
      ratSqrt_sq (by norm_num)]
    norm_num
  have hci : computeIntersection ⟨1 / 2000, ⟨0, 0, 0⟩, ⟨255, 0, 0, 255⟩, 0, 0⟩
      ⟨-1, 0, 0⟩ ⟨2, 0, 0⟩ = .ok (2001 / 4000, 1999 / 4000) := by
    rw [computeIntersection, if_neg (by norm_num [vdot]), hro]
  have hnull : Sphere.isNull ⟨1 / 2000, ⟨0, 0, 0⟩, ⟨255, 0, 0, 255⟩, 0, 0⟩ = true := by
    rw [Sphere.isNull]
    simp only [vlength_zero, decide_eq_true_eq]
    norm_num [epsilonVal, abs_le]
  have hstep : closestStep ⟨-1, 0, 0⟩ ⟨2, 0, 0⟩ epsilonVal 1 (nullSphere, maxFloat64)
      ⟨1 / 2000, ⟨0, 0, 0⟩, ⟨255, 0, 0, 255⟩, 0, 0⟩ =
      (⟨1 / 2000, ⟨0, 0, 0⟩, ⟨255, 0, 0, 255⟩, 0, 0⟩, 1999 / 4000) := by
    rw [closestStep, hro]
    norm_num [epsilonVal, maxFloat64]
  have hfc : findClosest ⟨-1, 0, 0⟩ ⟨2, 0, 0⟩
      [⟨1 / 2000, ⟨0, 0, 0⟩, ⟨255, 0, 0, 255⟩, 0, 0⟩] epsilonVal 1 =
      .ok (⟨1 / 2000, ⟨0, 0, 0⟩, ⟨255, 0, 0, 255⟩, 0, 0⟩, 1999 / 4000) := by
    rw [findClosest]
    rw [show findClosestAux ⟨-1, 0, 0⟩ ⟨2, 0, 0⟩ epsilonVal 1
        [⟨1 / 2000, ⟨0, 0, 0⟩, ⟨255, 0, 0, 255⟩, 0, 0⟩] (nullSphere, maxFloat64) =
        findClosestAux ⟨-1, 0, 0⟩ ⟨2, 0, 0⟩ epsilonVal 1 []
          (closestStep ⟨-1, 0, 0⟩ ⟨2, 0, 0⟩ epsilonVal 1 (nullSphere, maxFloat64)
            ⟨1 / 2000, ⟨0, 0, 0⟩, ⟨255, 0, 0, 255⟩, 0, 0⟩) from by
      simp only [findClosestAux]
      rw [hci]]
    rw [hstep]
    simp only [findClosestAux]
  have hlm1 : vlength ⟨-1, 0, 0⟩ = 1 := by
    rw [vlength]
    norm_num [ratSqrt_one]
  have hfc2 : findClosest ⟨-1, 0, 0⟩ (vsub ⟨1, 0, 0⟩ ⟨-1, 0, 0⟩)
      [⟨1 / 2000, ⟨0, 0, 0⟩, ⟨255, 0, 0, 255⟩, 0, 0⟩] epsilonVal 1 =
      .ok (⟨1 / 2000, ⟨0, 0, 0⟩, ⟨255, 0, 0, 255⟩, 0, 0⟩, 1999 / 4000) := by
    rw [hld]
    exact hfc
  refine ⟨by rw [hld]; exact hci, by norm_num [epsilonVal], by norm_num, ?_, by norm_num⟩
  rw [computeLighting_point_cases _ _ _ _ _ _ _ _ rfl hfc2]
  rw [hnull, if_pos rfl, if_neg (by norm_num), hld, hlm1, vlength_e1]
  norm_num [vdot]

/-- C6: for every ray that misses every sphere of the scene within
`[tMin, tMax]` (no root of any sphere lies in the interval; the direction
is non-degenerate so the intersections are actually computed), `TraceRay`
returns exactly the fixed background gray `(125, 125, 125, 255)`. -/
theorem traceRay_miss (startPoint direction : Vec3) (spheres : List Sphere)
    (lights : List Light) (depth : ℤ) (tMin tMax : ℚ)
    (ha : vdot direction direction ≠ 0)
    (hmiss : ∀ s ∈ spheres,
      ¬(tMin ≤ (rootsOf s startPoint direction).1 ∧
          (rootsOf s startPoint direction).1 ≤ tMax) ∧
      ¬(tMin ≤ (rootsOf s startPoint direction).2 ∧
          (rootsOf s startPoint direction).2 ≤ tMax)) :
    traceRay startPoint direction spheres lights depth tMin tMax = .ok bgGray := by
  have hcand : candidatePairs startPoint direction tMin tMax spheres = [] := by
    rw [candidatePairs, List.flatMap_eq_nil_iff]
    intro s hs
    rw [List.filter_eq_nil_iff]
    intro c hc
    simp only [List.mem_cons, List.not_mem_nil, or_false] at hc
    simp only [decide_eq_true_eq]
    rcases hc with rfl | rfl
    · exact (hmiss s hs).1
    · exact (hmiss s hs).2
  have hfc : findClosest startPoint direction spheres tMin tMax =
      .ok (nullSphere, maxFloat64) := by
    rw [findClosest_eq_foldl ha, hcand]
    rfl
  exact traceRay_isNull hfc nullSphere_isNull

/-- Witness for C6: a concrete ray that misses the single scene sphere
(roots 99 and 101, interval `[1, 2]`) and yields the background gray. -/
theorem traceRay_miss_witness :
    vdot ⟨0, 0, 1⟩ ⟨0, 0, 1⟩ ≠ 0 ∧
    (∀ s ∈ [(⟨1, ⟨0, 0, 100⟩, ⟨255, 0, 0, 255⟩, 0, 0⟩ : Sphere)],
      ¬((1 : ℚ) ≤ (rootsOf s ⟨0, 0, 0⟩ ⟨0, 0, 1⟩).1 ∧
          (rootsOf s ⟨0, 0, 0⟩ ⟨0, 0, 1⟩).1 ≤ 2) ∧
      ¬((1 : ℚ) ≤ (rootsOf s ⟨0, 0, 0⟩ ⟨0, 0, 1⟩).2 ∧
          (rootsOf s ⟨0, 0, 0⟩ ⟨0, 0, 1⟩).2 ≤ 2)) ∧
    traceRay ⟨0, 0, 0⟩ ⟨0, 0, 1⟩ [⟨1, ⟨0, 0, 100⟩, ⟨255, 0, 0, 255⟩, 0, 0⟩] [] 3 1 2 =
      .ok bgGray := by
  have ha : vdot (⟨0, 0, 1⟩ : Vec3) ⟨0, 0, 1⟩ ≠ 0 := by norm_num [vdot]
  have hro : rootsOf ⟨1, ⟨0, 0, 100⟩, ⟨255, 0, 0, 255⟩, 0, 0⟩ ⟨0, 0, 0⟩ ⟨0, 0, 1⟩ =
      (101, 99) := by
    rw [rootsOf]
    norm_num [vsub, vdot]
    rw [show (4 : ℚ) = 2 * 2 by norm_num, ratSqrt_sq (by norm_num)]
    norm_num
  have hmiss : ∀ s ∈ [(⟨1, ⟨0, 0, 100⟩, ⟨255, 0, 0, 255⟩, 0, 0⟩ : Sphere)],
      ¬((1 : ℚ) ≤ (rootsOf s ⟨0, 0, 0⟩ ⟨0, 0, 1⟩).1 ∧
          (rootsOf s ⟨0, 0, 0⟩ ⟨0, 0, 1⟩).1 ≤ 2) ∧
      ¬((1 : ℚ) ≤ (rootsOf s ⟨0, 0, 0⟩ ⟨0, 0, 1⟩).2 ∧
          (rootsOf s ⟨0, 0, 0⟩ ⟨0, 0, 1⟩).2 ≤ 2) := by
    intro s hs
    rw [List.mem_singleton] at hs
    subst hs
    rw [hro]
    norm_num
  exact ⟨ha, hmiss, traceRay_miss _ _ _ _ _ _ _ ha hmiss⟩

/-- C8: `TraceRay` terminates on every input (it is realised below as a
total function whose reflective branch recurses only at `depth - 1`), and a
call with `depth = 0` never recurses: for every origin, direction, scene,
lights, interval and any reflective coefficient of the hit sphere it
computes exactly the non-recursive body `traceRayNoRec` — closest hit,
miss → background gray, local shading, and an unconditional return of the
locally shaded colour. -/
theorem traceRay_depth_zero (startPoint direction : Vec3) (spheres : List Sphere)
    (lights : List Light) (tMin tMax : ℚ) :
    traceRay startPoint direction spheres lights 0 tMin tMax =
      traceRayNoRec startPoint direction spheres lights tMin tMax := by
  rw [traceRay, traceRayFuel.eq_def, traceRayNoRec]
  dsimp only
  rcases hfc : findClosest startPoint direction spheres tMin tMax with e | p
  · rfl
  · obtain ⟨cs, t⟩ := p
    simp only
    by_cases hn : cs.isNull = true
    · rw [if_pos hn, if_pos hn]
    · rw [if_neg hn, if_neg hn]
      rcases hsl : sumLighting
          (vadd startPoint (vmulScalar direction t))
          (vnormalize (vsub (vadd startPoint (vmulScalar direction t)) cs.center))
          (vneg direction) cs.specular spheres lights 0 with e2 | lv
      · rfl
      · simp only
        rw [if_pos (Or.inr (le_refl (0 : ℤ)))]

theorem narrowU8_lt (q : ℚ) : narrowU8 q < 256 := by
  rw [narrowU8]
  have h1 : 0 ≤ ⌊q⌋ % 256 := Int.emod_nonneg _ (by norm_num)
  have h2 : ⌊q⌋ % 256 < 256 := Int.emod_lt_of_pos _ (by norm_num)
  omega

theorem narrowU8_natCast (n : ℕ) : narrowU8 (n : ℚ) = n % 256 := by
  rw [narrowU8, Int.floor_natCast]
  omega

theorem narrowU8_zero : narrowU8 0 = 0 := by
  simpa using narrowU8_natCast 0

/-- Every colour `traceRayFuel` can return has its R, G, B channels below
256: the miss colour is the fixed gray, local shading narrows each channel
to 8 bits, and the reflective blend adds modulo 256.  (The alpha channel is
deliberately absent: it is passed through unchanged.) -/
theorem traceRayFuel_ok_channels (fuel : ℕ) (startPoint direction : Vec3)
    (spheres : List Sphere) (lights : List Light) (depth : ℤ) (tMin tMax : ℚ)
    (c : ColorQ)
    (h : traceRayFuel startPoint direction spheres lights tMax fuel depth tMin =
      .ok c) : c.r < 256 ∧ c.g < 256 ∧ c.b < 256 := by
  rw [traceRayFuel.eq_def] at h
  dsimp only at h
  split at h
  · cases h
  · split at h
    · obtain rfl := (Except.ok.injEq _ _).mp h.symm
      refine ⟨by norm_num [bgGray], by norm_num [bgGray], by norm_num [bgGray]⟩
    · split at h
      · cases h
      · split at h
        · obtain rfl := (Except.ok.injEq _ _).mp h.symm
          exact ⟨narrowU8_lt _, narrowU8_lt _, narrowU8_lt _⟩
        · split at h
          · obtain rfl := (Except.ok.injEq _ _).mp h.symm
            exact ⟨narrowU8_lt _, narrowU8_lt _, narrowU8_lt _⟩
          · split at h
            · cases h
            · obtain rfl := (Except.ok.injEq _ _).mp h.symm
              exact ⟨Nat.mod_lt _ (by norm_num), Nat.mod_lt _ (by norm_num),
                Nat.mod_lt _ (by norm_num)⟩

/-- Blending with `reflective = 1` is the identity on the reflected colour
(given its channels are in range): the local colour is scaled by 0 and the
reflected channels by 1. -/
theorem blendColors_one (rc lc : ColorQ)
    (h : rc.r < 256 ∧ rc.g < 256 ∧ rc.b < 256) : blendColors rc lc 1 = rc := by
  obtain ⟨h1, h2, h3⟩ := h
  obtain ⟨r, g, b, a⟩ := rc
  simp only at h1 h2 h3
  rw [blendColors]
  dsimp only
  norm_num [narrowU8_natCast, narrowU8_zero]
  exact ⟨h1, h2, h3⟩

/-- Unfolding of `TraceRay` on a reflective hit with remaining depth: the
result is the recursive reflected trace blended against the locally shaded
colour. -/
theorem traceRay_reflective_unfold (startPoint direction : Vec3)
    (spheres : List Sphere) (lights : List Light) (depth : ℤ) (tMin tMax : ℚ)
    (cs : Sphere) (t ls : ℚ)
    (hfc : findClosest startPoint direction spheres tMin tMax = .ok (cs, t))
    (hnn : cs.isNull = false)
    (hsl : sumLighting (vadd startPoint (vmulScalar direction t))
        (vnormalize (vsub (vadd startPoint (vmulScalar direction t)) cs.center))
        (vneg direction) cs.specular spheres lights 0 = .ok ls)
    (hrefl : 0 < cs.reflective) (hdepth : 0 < depth) :
    traceRay startPoint direction spheres lights depth tMin tMax =
      match traceRay (vadd startPoint (vmulScalar direction t))
          (reflectRay (vneg direction)
            (vnormalize (vsub (vadd startPoint (vmulScalar direction t)) cs.center)))
          spheres lights (depth - 1) epsilonVal tMax with
      | .error e => .error e
      | .ok reflectedColor =>
        .ok (blendColors reflectedColor (localShade cs (min maxIntensityVal ls))
          cs.reflective) := by
  obtain ⟨n, hn⟩ : ∃ n, depth.toNat = n + 1 := ⟨(depth - 1).toNat, by omega⟩
  rw [traceRay, traceRayFuel.eq_def]
  dsimp only
  rw [hfc]
  simp only
  rw [if_neg (by rw [hnn]; exact Bool.false_ne_true), hsl]
  simp only
  rw [if_neg (not_or.mpr ⟨not_le.mpr hrefl, not_le.mpr hdepth⟩), hn]
  simp only
  rw [show n = (depth - 1).toNat from by omega]
  rfl

/-- C7: blend identity of `TraceRay`'s reflection step, for a hit
(non-null) sphere with successful lighting and remaining depth.  For
`reflective = 0` the returned colour is exactly the locally shaded colour;
for `reflective = 1` the result is exactly the recursively traced reflected
ray's value (colour and panic alike) — the blend's 8-bit narrowing is the
identity there because the reflected channels are in range and the local
channels are scaled by zero. -/
theorem traceRay_blend_identity (startPoint direction : Vec3)
    (spheres : List Sphere) (lights : List Light) (depth : ℤ) (tMin tMax : ℚ)
    (cs : Sphere) (t ls : ℚ)
    (hfc : findClosest startPoint direction spheres tMin tMax = .ok (cs, t))
    (hnn : cs.isNull = false)
    (hsl : sumLighting (vadd startPoint (vmulScalar direction t))
        (vnormalize (vsub (vadd startPoint (vmulScalar direction t)) cs.center))
        (vneg direction) cs.specular spheres lights 0 = .ok ls)
    (hdepth : 0 < depth) :
    (cs.reflective = 0 →
      traceRay startPoint direction spheres lights depth tMin tMax =
        .ok (localShade cs (min maxIntensityVal ls))) ∧
    (cs.reflective = 1 →
      traceRay startPoint direction spheres lights depth tMin tMax =
        traceRay (vadd startPoint (vmulScalar direction t))
          (reflectRay (vneg direction)
            (vnormalize (vsub (vadd startPoint (vmulScalar direction t)) cs.center)))
          spheres lights (depth - 1) epsilonVal tMax) := by
  constructor
  · intro hrefl
    rw [traceRay, traceRayFuel.eq_def]
    dsimp only
    rw [hfc]
    simp only
    rw [if_neg (by rw [hnn]; exact Bool.false_ne_true), hsl]
    simp only
    rw [if_pos (Or.inl (le_of_eq hrefl))]
  · intro hrefl
    rw [traceRay_reflective_unfold startPoint direction spheres lights depth tMin
      tMax cs t ls hfc hnn hsl (by rw [hrefl]; norm_num) hdepth]
    rcases hrec : traceRay (vadd startPoint (vmulScalar direction t))
        (reflectRay (vneg direction)
          (vnormalize (vsub (vadd startPoint (vmulScalar direction t)) cs.center)))
        spheres lights (depth - 1) epsilonVal tMax with e | rc
    · rfl
    · simp only
      rw [hrefl, blendColors_one rc _ (traceRayFuel_ok_channels _ _ _ _ _ _ _ _ _ hrec)]

/-- Witness for C7 at a concrete fully reflective sphere (`reflective = 1`)
hit at `t = 2` with no lights: both hypotheses and the instantiated blend
identity hold. -/
theorem traceRay_blend_identity_witness :
    findClosest ⟨0, 0, 0⟩ ⟨0, 0, 1⟩ [⟨1, ⟨0, 0, 3⟩, ⟨200, 100, 50, 255⟩, -1, 1⟩]
        1 100 = .ok (⟨1, ⟨0, 0, 3⟩, ⟨200, 100, 50, 255⟩, -1, 1⟩, 2) ∧
    Sphere.isNull ⟨1, ⟨0, 0, 3⟩, ⟨200, 100, 50, 255⟩, -1, 1⟩ = false ∧
    sumLighting (vadd ⟨0, 0, 0⟩ (vmulScalar ⟨0, 0, 1⟩ 2))
        (vnormalize (vsub (vadd ⟨0, 0, 0⟩ (vmulScalar ⟨0, 0, 1⟩ 2)) ⟨0, 0, 3⟩))
        (vneg ⟨0, 0, 1⟩) (-1) [⟨1, ⟨0, 0, 3⟩, ⟨200, 100, 50, 255⟩, -1, 1⟩] [] 0 =
      .ok 0 ∧
    (0 : ℤ) < 3 ∧
    ((Sphere.reflective ⟨1, ⟨0, 0, 3⟩, ⟨200, 100, 50, 255⟩, -1, 1⟩ = 0 →
      traceRay ⟨0, 0, 0⟩ ⟨0, 0, 1⟩ [⟨1, ⟨0, 0, 3⟩, ⟨200, 100, 50, 255⟩, -1, 1⟩] []
          3 1 100 =
        .ok (localShade ⟨1, ⟨0, 0, 3⟩, ⟨200, 100, 50, 255⟩, -1, 1⟩
          (min maxIntensityVal 0))) ∧
    (Sphere.reflective ⟨1, ⟨0, 0, 3⟩, ⟨200, 100, 50, 255⟩, -1, 1⟩ = 1 →
      traceRay ⟨0, 0, 0⟩ ⟨0, 0, 1⟩ [⟨1, ⟨0, 0, 3⟩, ⟨200, 100, 50, 255⟩, -1, 1⟩] []
          3 1 100 =
        traceRay (vadd ⟨0, 0, 0⟩ (vmulScalar ⟨0, 0, 1⟩ 2))
          (reflectRay (vneg ⟨0, 0, 1⟩)
            (vnormalize (vsub (vadd ⟨0, 0, 0⟩ (vmulScalar ⟨0, 0, 1⟩ 2)) ⟨0, 0, 3⟩)))
          [⟨1, ⟨0, 0, 3⟩, ⟨200, 100, 50, 255⟩, -1, 1⟩] [] (3 - 1) epsilonVal 100)) := by
  have hro : rootsOf ⟨1, ⟨0, 0, 3⟩, ⟨200, 100, 50, 255⟩, -1, 1⟩ ⟨0, 0, 0⟩
      ⟨0, 0, 1⟩ = (4, 2) := by
    rw [rootsOf]
    norm_num [vsub, vdot]
    rw [show (4 : ℚ) = 2 * 2 by norm_num, ratSqrt_sq (by norm_num)]
    norm_num
  have hci : computeIntersection ⟨1, ⟨0, 0, 3⟩, ⟨200, 100, 50, 255⟩, -1, 1⟩
      ⟨0, 0, 0⟩ ⟨0, 0, 1⟩ = .ok (4, 2) := by
    rw [computeIntersection, if_neg (by norm_num [vdot]), hro]
  have hstep : closestStep ⟨0, 0, 0⟩ ⟨0, 0, 1⟩ 1 100 (nullSphere, maxFloat64)
      ⟨1, ⟨0, 0, 3⟩, ⟨200, 100, 50, 255⟩, -1, 1⟩ =
      (⟨1, ⟨0, 0, 3⟩, ⟨200, 100, 50, 255⟩, -1, 1⟩, 2) := by
    rw [closestStep, hro]
    norm_num [maxFloat64]
  have hfc : findClosest ⟨0, 0, 0⟩ ⟨0, 0, 1⟩
      [⟨1, ⟨0, 0, 3⟩, ⟨200, 100, 50, 255⟩, -1, 1⟩] 1 100 =
      .ok (⟨1, ⟨0, 0, 3⟩, ⟨200, 100, 50, 255⟩, -1, 1⟩, 2) := by
    rw [findClosest]
    rw [show findClosestAux ⟨0, 0, 0⟩ ⟨0, 0, 1⟩ 1 100
        [⟨1, ⟨0, 0, 3⟩, ⟨200, 100, 50, 255⟩, -1, 1⟩] (nullSphere, maxFloat64) =
        findClosestAux ⟨0, 0, 0⟩ ⟨0, 0, 1⟩ 1 100 []
          (closestStep ⟨0, 0, 0⟩ ⟨0, 0, 1⟩ 1 100 (nullSphere, maxFloat64)
            ⟨1, ⟨0, 0, 3⟩, ⟨200, 100, 50, 255⟩, -1, 1⟩) from by
      simp only [findClosestAux]
      rw [hci]]
    rw [hstep]
    simp only [findClosestAux]
  have hnn : Sphere.isNull ⟨1, ⟨0, 0, 3⟩, ⟨200, 100, 50, 255⟩, -1, 1⟩ = false := by
    rw [Sphere.isNull]
    simp only [decide_eq_false_iff_not, not_and]
    intro habs
    exfalso
    norm_num [epsilonVal] at habs
  exact ⟨hfc, hnn, rfl, by norm_num,
    traceRay_blend_identity _ _ _ _ _ _ _ _ _ _ hfc hnn rfl (by norm_num)⟩

/-- On a non-null hit, a lighting panic propagates out of `TraceRay`. -/
theorem traceRay_lighting_error (startPoint direction : Vec3)
    (spheres : List Sphere) (lights : List Light) (depth : ℤ) (tMin tMax : ℚ)
    (cs : Sphere) (t : ℚ) (e : String)
    (hfc : findClosest startPoint direction spheres tMin tMax = .ok (cs, t))
    (hnn : cs.isNull = false)
    (hsl : sumLighting (vadd startPoint (vmulScalar direction t))
        (vnormalize (vsub (vadd startPoint (vmulScalar direction t)) cs.center))
        (vneg direction) cs.specular spheres lights 0 = .error e) :
    traceRay startPoint direction spheres lights depth tMin tMax = .error e := by
  rw [traceRay, traceRayFuel.eq_def]
  dsimp only
  rw [hfc]
  simp only
  rw [if_neg (by rw [hnn]; exact Bool.false_ne_true), hsl]

/-- On a non-null hit with `reflective ≤ 0` or exhausted depth, `TraceRay`
returns the locally shaded colour. -/
theorem traceRay_local_ok (startPoint direction : Vec3) (spheres : List Sphere)
    (lights : List Light) (depth : ℤ) (tMin tMax : ℚ) (cs : Sphere) (t ls : ℚ)
    (hfc : findClosest startPoint direction spheres tMin tMax = .ok (cs, t))
    (hnn : cs.isNull = false)
    (hsl : sumLighting (vadd startPoint (vmulScalar direction t))
        (vnormalize (vsub (vadd startPoint (vmulScalar direction t)) cs.center))
        (vneg direction) cs.specular spheres lights 0 = .ok ls)
    (hcond : cs.reflective ≤ 0 ∨ depth ≤ 0) :
    traceRay startPoint direction spheres lights depth tMin tMax =
      .ok (localShade cs (min maxIntensityVal ls)) := by
  rw [traceRay, traceRayFuel.eq_def]
  dsimp only
  rw [hfc]
  simp only
  rw [if_neg (by rw [hnn]; exact Bool.false_ne_true), hsl]
  simp only
  rw [if_pos hcond]

/-- C10: `TraceRay` never scales or blends the alpha channel.  When the
returned value is a colour `c`: on a miss (`FindClosest` yields the null
sentinel) `c.a = 255`; on a non-reflective hit or with exhausted depth
`c.a` is the hit sphere's own alpha, untouched by the lighting scale; and
on a reflective bounce `c.a` is the alpha of the recursively traced
reflected colour, the local sphere's alpha being discarded. -/
theorem traceRay_alpha (startPoint direction : Vec3) (spheres : List Sphere)
    (lights : List Light) (depth : ℤ) (tMin tMax : ℚ) (c : ColorQ)
    (h : traceRay startPoint direction spheres lights depth tMin tMax = .ok c) :
    (∀ cs t, findClosest startPoint direction spheres tMin tMax = .ok (cs, t) →
      cs.isNull = true → c.a = 255) ∧
    (∀ cs t, findClosest startPoint direction spheres tMin tMax = .ok (cs, t) →
      cs.isNull = false → (cs.reflective ≤ 0 ∨ depth ≤ 0) → c.a = cs.color.a) ∧
    (∀ cs t, findClosest startPoint direction spheres tMin tMax = .ok (cs, t) →
      cs.isNull = false → 0 < cs.reflective → 0 < depth →
      ∃ rc, traceRay (vadd startPoint (vmulScalar direction t))
          (reflectRay (vneg direction)
            (vnormalize (vsub (vadd startPoint (vmulScalar direction t)) cs.center)))
          spheres lights (depth - 1) epsilonVal tMax = .ok rc ∧ c.a = rc.a) := by
  refine ⟨?_, ?_, ?_⟩
  · intro cs t hfc hnull
    rw [traceRay_isNull hfc hnull] at h
    obtain rfl := (Except.ok.injEq _ _).mp h.symm
    rfl
  · intro cs t hfc hnn hcond
    rcases hsl : sumLighting (vadd startPoint (vmulScalar direction t))
        (vnormalize (vsub (vadd startPoint (vmulScalar direction t)) cs.center))
        (vneg direction) cs.specular spheres lights 0 with e | ls
    · rw [traceRay_lighting_error _ _ _ _ _ _ _ _ _ _ hfc hnn hsl] at h
      cases h
    · rw [traceRay_local_ok _ _ _ _ _ _ _ _ _ _ hfc hnn hsl hcond] at h
      obtain rfl := (Except.ok.injEq _ _).mp h.symm
      rfl
  · intro cs t hfc hnn hrefl hdepth
    rcases hsl : sumLighting (vadd startPoint (vmulScalar direction t))
        (vnormalize (vsub (vadd startPoint (vmulScalar direction t)) cs.center))
        (vneg direction) cs.specular spheres lights 0 with e | ls
    · rw [traceRay_lighting_error _ _ _ _ _ _ _ _ _ _ hfc hnn hsl] at h
      cases h
    · rw [traceRay_reflective_unfold _ _ _ _ _ _ _ _ _ _ hfc hnn hsl hrefl hdepth]
        at h
      rcases hrec : traceRay (vadd startPoint (vmulScalar direction t))
          (reflectRay (vneg direction)
            (vnormalize (vsub (vadd startPoint (vmulScalar direction t)) cs.center)))
          spheres lights (depth - 1) epsilonVal tMax with e | rc
      · rw [hrec] at h
        cases h
      · rw [hrec] at h
        simp only at h
        obtain rfl := (Except.ok.injEq _ _).mp h.symm
        exact ⟨rc, rfl, rfl⟩

/-- Witness for C10 at a concrete missing ray (the scene sphere's roots 99
and 101 lie outside `[1, 2]`): `TraceRay` returns the background gray and
the alpha case analysis holds at `c = (125,125,125,255)`. -/
theorem traceRay_alpha_witness :
    traceRay ⟨0, 0, 0⟩ ⟨0, 0, 1⟩ [⟨1, ⟨0, 0, 100⟩, ⟨255, 0, 0, 255⟩, 0, 0⟩] [] 3 1 2 =
      .ok bgGray ∧
    ((∀ cs t, findClosest ⟨0, 0, 0⟩ ⟨0, 0, 1⟩
        [⟨1, ⟨0, 0, 100⟩, ⟨255, 0, 0, 255⟩, 0, 0⟩] 1 2 = .ok (cs, t) →
      cs.isNull = true → bgGray.a = 255) ∧
    (∀ cs t, findClosest ⟨0, 0, 0⟩ ⟨0, 0, 1⟩
        [⟨1, ⟨0, 0, 100⟩, ⟨255, 0, 0, 255⟩, 0, 0⟩] 1 2 = .ok (cs, t) →
      cs.isNull = false → (cs.reflective ≤ 0 ∨ (3 : ℤ) ≤ 0) →
        bgGray.a = cs.color.a) ∧
    (∀ cs t, findClosest ⟨0, 0, 0⟩ ⟨0, 0, 1⟩
        [⟨1, ⟨0, 0, 100⟩, ⟨255, 0, 0, 255⟩, 0, 0⟩] 1 2 = .ok (cs, t) →
      cs.isNull = false → 0 < cs.reflective → (0 : ℤ) < 3 →
      ∃ rc, traceRay (vadd ⟨0, 0, 0⟩ (vmulScalar ⟨0, 0, 1⟩ t))
          (reflectRay (vneg ⟨0, 0, 1⟩)
            (vnormalize (vsub (vadd ⟨0, 0, 0⟩ (vmulScalar ⟨0, 0, 1⟩ t)) cs.center)))
          [⟨1, ⟨0, 0, 100⟩, ⟨255, 0, 0, 255⟩, 0, 0⟩] [] (3 - 1) epsilonVal 2 =
            .ok rc ∧ bgGray.a = rc.a)) := by
  have ha : vdot (⟨0, 0, 1⟩ : Vec3) ⟨0, 0, 1⟩ ≠ 0 := by norm_num [vdot]
  have hro : rootsOf ⟨1, ⟨0, 0, 100⟩, ⟨255, 0, 0, 255⟩, 0, 0⟩ ⟨0, 0, 0⟩ ⟨0, 0, 1⟩ =
      (101, 99) := by
    rw [rootsOf]
    norm_num [vsub, vdot]
    rw [show (4 : ℚ) = 2 * 2 by norm_num, ratSqrt_sq (by norm_num)]
    norm_num
  have hcand : candidatePairs ⟨0, 0, 0⟩ ⟨0, 0, 1⟩ 1 2
      [⟨1, ⟨0, 0, 100⟩, ⟨255, 0, 0, 255⟩, 0, 0⟩] = [] := by
    rw [candidatePairs, List.flatMap_eq_nil_iff]
    intro s hs
    rw [List.mem_singleton] at hs
    subst hs
    rw [List.filter_eq_nil_iff]
    intro c hc
    simp only [List.mem_cons, List.not_mem_nil, or_false] at hc
    simp only [decide_eq_true_eq]
    rw [hro] at hc
    rcases hc with rfl | rfl <;> norm_num
  have hfc : findClosest ⟨0, 0, 0⟩ ⟨0, 0, 1⟩
      [⟨1, ⟨0, 0, 100⟩, ⟨255, 0, 0, 255⟩, 0, 0⟩] 1 2 =
      .ok (nullSphere, maxFloat64) := by
    rw [findClosest_eq_foldl ha, hcand]
    rfl
  have hev : traceRay ⟨0, 0, 0⟩ ⟨0, 0, 1⟩
      [⟨1, ⟨0, 0, 100⟩, ⟨255, 0, 0, 255⟩, 0, 0⟩] [] 3 1 2 = .ok bgGray :=
    traceRay_isNull hfc nullSphere_isNull
  exact ⟨hev, traceRay_alpha _ _ _ _ _ _ _ _ hev⟩

end RT
